import Mathlib

/-!
Shallow embedding of the vehicle-request approval workflow and the fuel-record
endpoints of the fleet-management application (app/routers/approval.py,
app/routers/request.py, app/routers/fuel.py, app/models.py, app/oauth2.py).

The relational store is modelled as explicit lists of rows; each endpoint is a
pure function from the request parameters and the database state to either an
API error or the new database state (the `Except` error branch models the
transaction rollback: an aborted handler persists nothing).
-/

namespace FleetApp

/-- Lifecycle status of a `VehicleRequest`, from the `request_status_enum`
column in app/models.py. -/
inductive ReqStatus where
  | pending
  | approved_by_chef
  | approved_by_logistic
  | fully_approved
  | denied
  | in_progress
  | completed
deriving DecidableEq, Repr

/-- Status stored on a `RequestApproval` row (`approval_status_enum` in
app/models.py). -/
inductive ApprStatus where
  | pending
  | approved
  | denied
deriving DecidableEq, Repr

/-- Modelled from the spec: the request body of `POST /api/v1/approvals/{id}`
(`schemas.RequestApprovalUpdate`, whose module is not in the sources) carries
`status: "approved"|"denied"` plus optional comments; the decision is one of
these two values. -/
inductive Decision where
  | approved
  | denied
deriving DecidableEq, Repr

/-- The `status` string written to the `RequestApproval` row for a decision
(the handler stores `approval_data.status.lower()`). -/
def Decision.toApprStatus : Decision → ApprStatus
  | .approved => .approved
  | .denied => .denied

/-- A `User` row, with the fields the modelled handlers read: primary key,
the (joined) role name string, and the nullable service (department) link. -/
structure User where
  id : Nat
  roleName : String
  serviceId : Option Nat
deriving DecidableEq, Repr

/-- A `VehicleRequest` row, restricted to the fields the modelled handlers
read or write: primary key, nullable requester link, lifecycle status and
creation time (modelled as a natural number tick). -/
structure VehicleRequest where
  id : Nat
  requesterId : Option Nat
  status : ReqStatus
  createdAt : Nat
deriving DecidableEq, Repr

/-- A `RequestApproval` row (app/models.py). -/
structure RequestApproval where
  requestId : Nat
  approverId : Option Nat
  approvalStep : Nat
  status : ApprStatus
  comments : Option String
deriving DecidableEq, Repr

/-- The slice of the relational store the request/approval handlers touch. -/
structure DB where
  users : List User
  requests : List VehicleRequest
  approvals : List RequestApproval
deriving DecidableEq, Repr

/-- The error taxonomy surfaced by the handlers (HTTP status codes raised via
`HTTPException`). -/
inductive ApiError where
  | notFound
  | forbidden
  | conflict
  | badRequest
deriving DecidableEq, Repr

/-- ASCII lowercase of one character, used to model Python's `str.lower()`
(role names are ASCII). -/
def lowerChar (c : Char) : Char :=
  if 65 ≤ c.toNat ∧ c.toNat ≤ 90 then Char.ofNat (c.toNat + 32) else c

/-- Python's `str.lower()` as the handlers apply it to role names
(`current_user.role.name.lower()`), modelled over the character list. -/
def lower (s : String) : String := ⟨s.data.map lowerChar⟩

/-- The roles accepted by the `require_role` dependency on
`POST /api/v1/approvals/{request_id}` (app/routers/approval.py). -/
def approvalRoles : List String :=
  ["chef", "logistic", "charoi", "admin", "superadmin"]

/-- Step 2 of `submit_approval`: the role-to-step chain. Returns 0 for a role
not configured for approvals. -/
def approvalStepFor (userRole : String) : Nat :=
  if userRole = "chef" then 1
  else if userRole = "logistic" then 2
  else if userRole ∈ ["charoi", "admin", "superadmin"] then 3
  else 0

/-- `db.query(VehicleRequest).filter(id == request_id).first()`. -/
def findRequest (db : DB) (requestId : Nat) : Option VehicleRequest :=
  db.requests.find? (fun r => r.id = requestId)

/-- `db.query(RequestApproval).filter(request_id == ..., approval_step == ...).first()`. -/
def findApproval (db : DB) (requestId step : Nat) : Option RequestApproval :=
  db.approvals.find? (fun a => a.requestId = requestId && a.approvalStep = step)

/-- Mutation of the single ORM object returned by `.first()`: set the status
of the first request row carrying the given primary key. -/
def setStatusFirst (l : List VehicleRequest) (requestId : Nat) (s : ReqStatus) :
    List VehicleRequest :=
  match l with
  | [] => []
  | r :: rs =>
    if r.id = requestId then { r with status := s } :: rs
    else r :: setStatusFirst rs requestId s

/-- Step 5 of `submit_approval`: the new aggregate status of the request, if
the handler assigns one (`none` models the fall-through where no branch of
the if/elif chain fires and the status is left as it was). -/
def aggregateStatusFor (decision : Decision) (step : Nat) : Option ReqStatus :=
  match decision with
  | .denied => some .denied
  | .approved =>
    if step = 1 then some .approved_by_chef
    else if step = 2 then some .approved_by_logistic
    else if step = 3 then some .fully_approved
    else none

/-- `submit_approval` (app/routers/approval.py): the whole
`POST /api/v1/approvals/{request_id}` handler, including the `require_role`
dependency that guards it. The `Except.error` branch carries no state: an
aborted transaction persists nothing. -/
def submit_approval (requestId : Nat) (decision : Decision)
    (comments : Option String) (currentUser : User) (db : DB) :
    Except ApiError DB :=
  if lower currentUser.roleName ∈ approvalRoles then
    match findRequest db requestId with
    | none => .error .notFound
    | some _ =>
      let userRole := lower currentUser.roleName
      let step := approvalStepFor userRole
      if step = 0 then .error .forbidden
      else
        match findApproval db requestId step with
        | some _ => .error .conflict
        | none =>
          let newApproval : RequestApproval :=
            { requestId := requestId
              approverId := some currentUser.id
              approvalStep := step
              status := decision.toApprStatus
              comments := comments }
          let requests' :=
            match aggregateStatusFor decision step with
            | some s => setStatusFirst db.requests requestId s
            | none => db.requests
          .ok { db with
                requests := requests'
                approvals := db.approvals ++ [newApproval] }
  else .error .forbidden

/-- `create_request` (app/routers/request.py): inserts a new row with the
caller as requester and status explicitly `pending`. The primary key and the
creation time are parameters (the store assigns them). -/
def create_request (newId createdAt : Nat) (currentUser : User) (db : DB) : DB :=
  { db with
    requests := db.requests ++
      [{ id := newId
         requesterId := some currentUser.id
         status := .pending
         createdAt := createdAt }] }

/-- Status of the request row carrying the given primary key. -/
def reqStatus? (db : DB) (requestId : Nat) : Option ReqStatus :=
  (findRequest db requestId).map (·.status)

/-- Number of `RequestApproval` rows recorded for a request. -/
def approvalCount (db : DB) (requestId : Nat) : Nat :=
  db.approvals.countP (fun a => a.requestId = requestId)

/-- The roles accepted by the `require_role` dependency on
`GET /api/v1/requests/` (app/routers/request.py). -/
def listRoles : List String :=
  ["admin", "superadmin", "logistic", "charoi", "chef"]

/-- `ORDER BY created_at DESC`: later-created rows first. -/
def newestFirst (a b : VehicleRequest) : Prop :=
  b.createdAt ≤ a.createdAt

instance : DecidableRel newestFirst := fun a b =>
  inferInstanceAs (Decidable (b.createdAt ≤ a.createdAt))

instance : IsTotal VehicleRequest newestFirst :=
  ⟨fun a b => Nat.le_total b.createdAt a.createdAt⟩

instance : IsTrans VehicleRequest newestFirst :=
  ⟨fun _ _ _ h1 h2 => Nat.le_trans h2 h1⟩

/-- The role-dependent `WHERE` clause of `get_all_requests`: the chef branch
is the inner join on `VehicleRequest.requester_id == User.id` filtered by the
requester's `service_id`; logistic and charoi filter on the status column;
admin and superadmin add no filter. -/
def roleFilter (userRole : String) (currentUser : User) (db : DB)
    (l : List VehicleRequest) : List VehicleRequest :=
  if userRole = "chef" then
    l.filter (fun r =>
      db.users.any (fun u =>
        some u.id = r.requesterId && u.serviceId = currentUser.serviceId))
  else if userRole = "logistic" then
    l.filter (fun r => r.status = ReqStatus.approved_by_chef)
  else if userRole = "charoi" then
    l.filter (fun r => r.status = ReqStatus.approved_by_logistic)
  else l

/-- `get_all_requests` (app/routers/request.py): role-filtered listing with
`ORDER BY created_at DESC`, then `LIMIT limit OFFSET skip` (SQL applies the
offset before the limit). A chef with no `service_id` returns `[]` before the
query runs. Includes the `require_role` dependency guarding the route. -/
def get_all_requests (currentUser : User) (limit skip : Nat) (db : DB) :
    Except ApiError (List VehicleRequest) :=
  if lower currentUser.roleName ∈ listRoles then
    let userRole := lower currentUser.roleName
    if userRole = "chef" ∧ currentUser.serviceId = none then .ok []
    else
      .ok ((((roleFilter userRole currentUser db db.requests).insertionSort
        newestFirst).drop skip).take limit)
  else .error .forbidden

/-- Specification predicate, following the spec's words for the list-requests
operation (visibility per role): admin and superadmin see everything; a chef
sees requests whose requester belongs to the chef's own service, and a chef
with no service sees none; logistic sees status `approved_by_chef`; charoi
sees status `approved_by_logistic`.  Compared against `get_all_requests`. -/
def visibleSpec (role : String) (u : User) (db : DB) (r : VehicleRequest) : Bool :=
  if role = "admin" ∨ role = "superadmin" then true
  else if role = "chef" then
    match u.serviceId with
    | none => false
    | some s =>
      db.users.any (fun q => some q.id = r.requesterId && q.serviceId = some s)
  else if role = "logistic" then r.status = ReqStatus.approved_by_chef
  else if role = "charoi" then r.status = ReqStatus.approved_by_logistic
  else false

/-- `delete_request` (app/routers/request.py): admins delete any request;
the owner deletes only while the status is still `pending`; everyone else
gets Forbidden. `request_query.delete()` removes the rows matching the
primary-key filter. -/
def delete_request (id : Nat) (currentUser : User) (db : DB) :
    Except ApiError DB :=
  match findRequest db id with
  | none => .error .notFound
  | some dbRequest =>
    let isAdmin := lower currentUser.roleName ∈ ["admin", "superadmin"]
    let isOwner := dbRequest.requesterId = some currentUser.id
    let isPending := dbRequest.status = ReqStatus.pending
    if isAdmin ∨ (isOwner ∧ isPending) then
      .ok { db with requests := db.requests.filter (fun r => ¬ r.id = id) }
    else .error .forbidden

end FleetApp

namespace FleetApp

/-! ### Fuel records (app/routers/fuel.py) -/

/-- A `Vehicle` row, restricted to its primary key (the only field the fuel
create/update handlers read). -/
structure Vehicle where
  id : Nat
deriving DecidableEq, Repr

/-- A `FuelType` row, restricted to its primary key. -/
structure FuelType where
  id : Nat
deriving DecidableEq, Repr

/-- A `Fuel` row (app/models.py): quantities, unit price and cost are `Float`
columns, modelled as rationals. -/
structure Fuel where
  id : Nat
  vehicleId : Nat
  fuelTypeId : Nat
  quantity : ℚ
  priceLittle : ℚ
  cost : ℚ
deriving DecidableEq, Repr

/-- The slice of the relational store the fuel handlers touch. -/
structure FuelDB where
  vehicles : List Vehicle
  fuelTypes : List FuelType
  fuels : List Fuel
deriving DecidableEq, Repr

/-- Modelled from the spec: `schemas.FuelCreatePayload` (its module is not in
the sources) carries the client-supplied fields the create handler reads —
vehicle, fuel type, quantity and unit price; per the handler's contract,
`cost` is "automatically calculated by the server" and is not a payload
field. -/
structure FuelCreatePayload where
  vehicleId : Nat
  fuelTypeId : Nat
  quantity : ℚ
  priceLittle : ℚ
deriving DecidableEq, Repr

/-- Modelled from the spec: `schemas.FuelUpdatePayload` (its module is not in
the sources) carries the same four fields, each optional (`exclude_unset`
semantics: `none` means the field was absent from the request body); `cost`
is recalculated by the server when quantity or price change and is not a
payload field. -/
structure FuelUpdatePayload where
  vehicleId : Option Nat := none
  fuelTypeId : Option Nat := none
  quantity : Option ℚ := none
  priceLittle : Option ℚ := none
deriving DecidableEq, Repr

/-- Python's `round(x, 2)`: round to two decimal places, written as
`⌊x * 100 + 1/2⌋ / 100` (the tie-breaking mode is irrelevant to the claims:
every cost is compared against this same function). -/
def round2 (x : ℚ) : ℚ := ((x * 100 + 1/2).floor : ℤ) / 100

/-- `create_new_fuel_record` (app/routers/fuel.py): validates the vehicle and
fuel-type foreign keys, rejects non-positive quantity or unit price with
BadRequest, then stores the record with `cost = round(quantity *
price_little, 2)`. The new row's primary key is a parameter (the store
assigns it). -/
def create_new_fuel_record (newId : Nat) (payload : FuelCreatePayload)
    (db : FuelDB) : Except ApiError FuelDB :=
  match db.vehicles.find? (fun v => v.id = payload.vehicleId) with
  | none => .error .notFound
  | some _ =>
    match db.fuelTypes.find? (fun t => t.id = payload.fuelTypeId) with
    | none => .error .notFound
    | some _ =>
      if payload.quantity ≤ 0 then .error .badRequest
      else if payload.priceLittle ≤ 0 then .error .badRequest
      else
        let calculatedCost := round2 (payload.quantity * payload.priceLittle)
        let record : Fuel :=
          { id := newId
            vehicleId := payload.vehicleId
            fuelTypeId := payload.fuelTypeId
            quantity := payload.quantity
            priceLittle := payload.priceLittle
            cost := calculatedCost }
        .ok { db with fuels := db.fuels ++ [record] }

/-- Apply the accumulated `update_data` dictionary to the ORM object
(`setattr` loop at the end of `update_existing_fuel_record`). -/
def applyFuelUpdate (rec : Fuel) (payload : FuelUpdatePayload)
    (cost? : Option ℚ) : Fuel :=
  { rec with
    vehicleId := payload.vehicleId.getD rec.vehicleId
    fuelTypeId := payload.fuelTypeId.getD rec.fuelTypeId
    quantity := payload.quantity.getD rec.quantity
    priceLittle := payload.priceLittle.getD rec.priceLittle
    cost := cost?.getD rec.cost }

/-- Replace the first fuel row carrying the given primary key. -/
def setFuelFirst (l : List Fuel) (fuelId : Nat) (f : Fuel) : List Fuel :=
  match l with
  | [] => []
  | r :: rs => if r.id = fuelId then f :: rs else r :: setFuelFirst rs fuelId f

/-- `update_existing_fuel_record` (app/routers/fuel.py): per-field update.
Foreign keys are re-checked only when supplied and different from the stored
value; a supplied non-positive quantity or price is BadRequest; if either
quantity or price was supplied, `cost` is recalculated as
`round(effective_quantity * effective_price_little, 2)` where the effective
values are the supplied ones, falling back to the stored ones. -/
def update_existing_fuel_record (fuelId : Nat) (payload : FuelUpdatePayload)
    (db : FuelDB) : Except ApiError FuelDB :=
  match db.fuels.find? (fun f => f.id = fuelId) with
  | none => .error .notFound
  | some dbRec =>
    let vehicleOk :=
      match payload.vehicleId with
      | none => true
      | some v =>
        if v = dbRec.vehicleId then true
        else (db.vehicles.find? (fun x => x.id = v)).isSome
    if !vehicleOk then .error .notFound
    else
      let fuelTypeOk :=
        match payload.fuelTypeId with
        | none => true
        | some t =>
          if t = dbRec.fuelTypeId then true
          else (db.fuelTypes.find? (fun x => x.id = t)).isSome
      if !fuelTypeOk then .error .notFound
      else if payload.quantity.any (fun q => q ≤ 0) then .error .badRequest
      else if payload.priceLittle.any (fun p => p ≤ 0) then .error .badRequest
      else
        let recalc := payload.quantity.isSome || payload.priceLittle.isSome
        let effQuantity := payload.quantity.getD dbRec.quantity
        let effPrice := payload.priceLittle.getD dbRec.priceLittle
        let cost? : Option ℚ :=
          if recalc then some (round2 (effQuantity * effPrice)) else none
        let updated := applyFuelUpdate dbRec payload cost?
        .ok { db with fuels := setFuelFirst db.fuels fuelId updated }

end FleetApp

namespace FleetApp

/-! ### Concrete fixtures (used to evaluate the theorems on closed inputs) -/

/-- Number of `RequestApproval` rows recorded for a request and step. -/
def stepCount (db : DB) (requestId step : Nat) : Nat :=
  db.approvals.countP (fun a => a.requestId = requestId && a.approvalStep = step)

/-- The spec's per-step uniqueness invariant: at most one `RequestApproval`
row per (request_id, approval_step). -/
def stepUnique (db : DB) : Prop :=
  ∀ requestId step, stepCount db requestId step ≤ 1

/-- An ordinary requester. -/
def exRequester : User := { id := 20, roleName := "user", serviceId := some 5 }

/-- A chef in service 5. -/
def exChef : User := { id := 21, roleName := "chef", serviceId := some 5 }

/-- A logistic user. -/
def exLogistic : User := { id := 22, roleName := "logistic", serviceId := none }

/-- A charoi user. -/
def exCharoi : User := { id := 23, roleName := "charoi", serviceId := none }

/-- An admin. -/
def exAdmin : User := { id := 24, roleName := "admin", serviceId := none }

/-- A driver: a role not configured for approvals. -/
def exDriver : User := { id := 25, roleName := "driver", serviceId := some 5 }

/-- A freshly created request owned by `exRequester`. -/
def exReq : VehicleRequest :=
  { id := 1, requesterId := some 20, status := .pending, createdAt := 100 }

/-- A database holding one pending request and no approvals. -/
def exDb : DB :=
  { users := [exRequester, exChef, exLogistic, exCharoi, exAdmin, exDriver]
    requests := [exReq]
    approvals := [] }

/-- The step-1 approval row the chef's decision on `exDb` inserts. -/
def exApproval1 : RequestApproval :=
  { requestId := 1, approverId := some 21, approvalStep := 1
    status := .approved, comments := none }

/-- `exDb` after the chef approved step 1. -/
def exDbStep1 : DB :=
  { users := exDb.users
    requests := [{ exReq with status := .approved_by_chef }]
    approvals := [exApproval1] }

/-- `exDb` after the logistic user denied at step 2. -/
def exDbDenied : DB :=
  { users := exDb.users
    requests := [{ exReq with status := .denied }]
    approvals := [{ requestId := 1, approverId := some 22, approvalStep := 2
                    status := .denied, comments := none }] }

/-- `exDbDenied` after the chef subsequently approves step 1: the status has
been overwritten. -/
def exDbDeniedThenChef : DB :=
  { users := exDb.users
    requests := [{ exReq with status := .approved_by_chef }]
    approvals := [{ requestId := 1, approverId := some 22, approvalStep := 2
                    status := .denied, comments := none },
                  { requestId := 1, approverId := some 21, approvalStep := 1
                    status := .approved, comments := none }] }

/-- A chef with no assigned service. -/
def exChefNoService : User := { id := 26, roleName := "chef", serviceId := none }

/-- A fuel store with one vehicle, one fuel type and no records. -/
def exFuelDb : FuelDB :=
  { vehicles := [{ id := 1 }], fuelTypes := [{ id := 2 }], fuels := [] }

/-- The fuel record created for 2 units at 5/4 each: cost 5/2. -/
def exFuel : Fuel :=
  { id := 7, vehicleId := 1, fuelTypeId := 2
    quantity := 2, priceLittle := 5/4, cost := 5/2 }

/-- `exFuelDb` after creating `exFuel`. -/
def exFuelDb1 : FuelDB := { exFuelDb with fuels := [exFuel] }

/-- `exFuelDb1` after updating the quantity to 3: cost recalculated to 15/4. -/
def exFuelDb2 : FuelDB :=
  { exFuelDb with
    fuels := [{ id := 7, vehicleId := 1, fuelTypeId := 2
                quantity := 3, priceLittle := 5/4, cost := 15/4 }] }

/-! ### Helper lemmas -/

/-- Roles accepted by the approval route are mapped to a non-zero step. -/
lemma approvalStepFor_ne_zero {role : String} (h : role ∈ approvalRoles) :
    approvalStepFor role ≠ 0 := by
  fin_cases h <;> decide

/-- The step chain only produces steps 1, 2 or 3 for eligible roles. -/
lemma approvalStepFor_mem {role : String} (h : role ∈ approvalRoles) :
    approvalStepFor role = 1 ∨ approvalStepFor role = 2 ∨
      approvalStepFor role = 3 := by
  fin_cases h <;> simp [approvalStepFor]

/-- For an eligible decision and a step in the 1..3 range, the status-update
chain always assigns a status. -/
lemma aggregateStatusFor_isSome {d : Decision} {step : Nat}
    (h : step = 1 ∨ step = 2 ∨ step = 3) :
    (aggregateStatusFor d step).isSome := by
  rcases h with h | h | h <;> subst h <;> cases d <;> decide

/-- The status the chain assigns for an approved decision is never `denied`. -/
lemma aggregateStatusFor_approved_ne_denied {step : Nat} {s : ReqStatus}
    (h : aggregateStatusFor .approved step = some s) : s ≠ ReqStatus.denied := by
  simp only [aggregateStatusFor] at h
  by_cases h1 : step = 1
  · rw [if_pos h1] at h; cases h; decide
  · rw [if_neg h1] at h
    by_cases h2 : step = 2
    · rw [if_pos h2] at h; cases h; decide
    · rw [if_neg h2] at h
      by_cases h3 : step = 3
      · rw [if_pos h3] at h; cases h; decide
      · rw [if_neg h3] at h; cases h

/-- Looking up a request after `setStatusFirst`: the first row with the key
has its status replaced, everything else about the lookup is unchanged. -/
lemma find?_setStatusFirst (l : List VehicleRequest) (rid : Nat) (s : ReqStatus) :
    (setStatusFirst l rid s).find? (fun r => r.id = rid) =
      (l.find? (fun r => r.id = rid)).map (fun r => { r with status := s }) := by
  induction l with
  | nil => rfl
  | cons r rs ih =>
    by_cases h : r.id = rid
    · simp [setStatusFirst, List.find?_cons, h]
    · simp [setStatusFirst, List.find?_cons, h, ih]

/-- Success inversion for `submit_approval`: an `ok` result pins down every
branch the handler took and the exact shape of the new state. -/
lemma submit_approval_ok_inv {requestId : Nat} {d : Decision}
    {c : Option String} {u : User} {db db' : DB}
    (h : submit_approval requestId d c u db = .ok db') :
    lower u.roleName ∈ approvalRoles ∧
    (∃ r, findRequest db requestId = some r) ∧
    findApproval db requestId (approvalStepFor (lower u.roleName)) = none ∧
    db'.users = db.users ∧
    db'.approvals = db.approvals ++
      [{ requestId := requestId
         approverId := some u.id
         approvalStep := approvalStepFor (lower u.roleName)
         status := d.toApprStatus
         comments := c }] ∧
    db'.requests =
      (match aggregateStatusFor d (approvalStepFor (lower u.roleName)) with
       | some s => setStatusFirst db.requests requestId s
       | none => db.requests) := by
  unfold submit_approval at h
  split at h
  case isFalse => exact absurd h (by simp)
  case isTrue hrole =>
    cases hreq : findRequest db requestId with
    | none => rw [hreq] at h; exact absurd h (by simp)
    | some r =>
      rw [hreq] at h
      simp only at h
      split at h
      case isTrue => exact absurd h (by simp)
      case isFalse hstep =>
        cases happ : findApproval db requestId (approvalStepFor (lower u.roleName)) with
        | some a => rw [happ] at h; exact absurd h (by simp)
        | none =>
          rw [happ] at h
          simp only [Except.ok.injEq] at h
          subst h
          exact ⟨hrole, ⟨r, rfl⟩, rfl, rfl, rfl, rfl⟩

/-- Forward evaluation of a successful `submit_approval`. -/
lemma submit_approval_ok {requestId : Nat} {d : Decision} {c : Option String}
    {u : User} {db : DB} {r : VehicleRequest}
    (hrole : lower u.roleName ∈ approvalRoles)
    (hreq : findRequest db requestId = some r)
    (happ : findApproval db requestId (approvalStepFor (lower u.roleName)) = none) :
    submit_approval requestId d c u db = .ok
      { db with
        requests :=
          match aggregateStatusFor d (approvalStepFor (lower u.roleName)) with
          | some s => setStatusFirst db.requests requestId s
          | none => db.requests
        approvals := db.approvals ++
          [{ requestId := requestId
             approverId := some u.id
             approvalStep := approvalStepFor (lower u.roleName)
             status := d.toApprStatus
             comments := c }] } := by
  unfold submit_approval
  rw [if_pos hrole, hreq]
  simp only [if_neg (approvalStepFor_ne_zero hrole), happ]

/-- An empty lookup for `(request_id, step)` means zero rows at that key. -/
lemma stepCount_eq_zero_of_findApproval_none {db : DB} {requestId step : Nat}
    (h : findApproval db requestId step = none) :
    stepCount db requestId step = 0 := by
  rw [stepCount, List.countP_eq_zero]
  exact List.find?_eq_none.mp h

/-- Classification of the error outcomes of `submit_approval`. -/
lemma submit_approval_error_inv {requestId : Nat} {d : Decision}
    {c : Option String} {u : User} {db : DB} {e : ApiError}
    (h : submit_approval requestId d c u db = .error e) :
    e = .notFound ∨ e = .forbidden ∨ e = .conflict := by
  unfold submit_approval at h
  split at h
  case isFalse => simp only [Except.error.injEq] at h; exact Or.inr (Or.inl h.symm)
  case isTrue =>
    cases hreq : findRequest db requestId with
    | none =>
      rw [hreq] at h; simp only [Except.error.injEq] at h
      exact Or.inl h.symm
    | some r =>
      rw [hreq] at h
      simp only at h
      split at h
      case isTrue => simp only [Except.error.injEq] at h; exact Or.inr (Or.inl h.symm)
      case isFalse =>
        cases happ : findApproval db requestId (approvalStepFor (lower u.roleName)) with
        | some a =>
          rw [happ] at h; simp only [Except.error.injEq] at h
          exact Or.inr (Or.inr h.symm)
        | none => rw [happ] at h; exact absurd h (by simp)

/-- `find?` skips a leading segment in which nothing matches. -/
lemma find?_append_none {α} (p : α → Bool) {l₁ : List α} (l₂ : List α)
    (h : l₁.find? p = none) : (l₁ ++ l₂).find? p = l₂.find? p := by
  rw [List.find?_append, h]; rfl

/-- A lookup for `(request_id, step)` over rows none of which matches. -/
lemma findApproval_eq_none_of_all {db : DB} {requestId step : Nat}
    (h : ∀ a ∈ db.approvals, ¬(a.requestId = requestId ∧ a.approvalStep = step)) :
    findApproval db requestId step = none :=
  List.find?_eq_none.mpr (fun a ha => by
    simpa [not_and] using h a ha)

/-- Looking up the freshly created request: the handler appends it, and no
pre-existing row carries its id. -/
lemma findRequest_create {db : DB} {newId : Nat} (createdAt : Nat) (u : User)
    (hfresh : ∀ r ∈ db.requests, r.id ≠ newId) :
    findRequest (create_request newId createdAt u db) newId =
      some { id := newId, requesterId := some u.id, status := .pending
             createdAt := createdAt } := by
  rw [findRequest, create_request]
  simp only
  rw [find?_append_none _ _ (List.find?_eq_none.mpr
    (fun r hr => by simp [hfresh r hr]))]
  simp [List.find?_cons]

/-- Request lookup in a state whose requests went through `setStatusFirst`. -/
lemma findRequest_of_set {users : List User} {apprs : List RequestApproval}
    {l : List VehicleRequest} {requestId : Nat} {s : ReqStatus}
    {r : VehicleRequest} (h : l.find? (fun x => x.id = requestId) = some r) :
    findRequest ⟨users, setStatusFirst l requestId s, apprs⟩ requestId =
      some { r with status := s } := by
  rw [findRequest]
  simp only
  rw [find?_setStatusFirst, h]
  rfl

/-- Success of `submit_approval` with the step and the new aggregate status
given as explicit values. -/
lemma submit_approval_ok_at {requestId : Nat} {d : Decision} {c : Option String}
    {u : User} {db : DB} {r : VehicleRequest} {step : Nat} {s : ReqStatus}
    (hrole : lower u.roleName ∈ approvalRoles)
    (hstep : approvalStepFor (lower u.roleName) = step)
    (hreq : findRequest db requestId = some r)
    (happ : findApproval db requestId step = none)
    (hs : aggregateStatusFor d step = some s) :
    submit_approval requestId d c u db = .ok
      { db with
        requests := setStatusFirst db.requests requestId s
        approvals := db.approvals ++
          [{ requestId := requestId
             approverId := some u.id
             approvalStep := step
             status := d.toApprStatus
             comments := c }] } := by
  subst hstep
  rw [submit_approval_ok hrole hreq happ]
  simp only [hs]

/-- The aggregate status after a successful submission is whatever the
status-update chain computed. -/
lemma reqStatus?_of_submit_ok {requestId : Nat} {d : Decision}
    {c : Option String} {u : User} {db db' : DB} {s : ReqStatus}
    (hok : submit_approval requestId d c u db = .ok db')
    (hs : aggregateStatusFor d (approvalStepFor (lower u.roleName)) = some s) :
    reqStatus? db' requestId = some s := by
  obtain ⟨_, ⟨r, hreq⟩, _, _, _, hrequests⟩ := submit_approval_ok_inv hok
  rw [reqStatus?, findRequest, hrequests, hs]
  simp only
  rw [find?_setStatusFirst]
  rw [findRequest] at hreq
  rw [hreq]
  rfl

/-- The charoi/admin/superadmin roles all map to step 3. -/
lemma approvalStepFor_of_mem3 {role : String}
    (h : role ∈ ["charoi", "admin", "superadmin"]) : approvalStepFor role = 3 := by
  fin_cases h <;> rfl

/-- The charoi/admin/superadmin roles are all accepted by the route guard. -/
lemma mem_approvalRoles_of_mem3 {role : String}
    (h : role ∈ ["charoi", "admin", "superadmin"]) : role ∈ approvalRoles := by
  fin_cases h <;> decide

/-- The admin branch of the listing filter adds no condition. -/
lemma roleFilter_admin (u : User) (db : DB) (l : List VehicleRequest) :
    roleFilter "admin" u db l = l := rfl

/-- The superadmin branch of the listing filter adds no condition. -/
lemma roleFilter_superadmin (u : User) (db : DB) (l : List VehicleRequest) :
    roleFilter "superadmin" u db l = l := rfl

/-- The logistic branch of the listing filter keeps `approved_by_chef`. -/
lemma roleFilter_logistic (u : User) (db : DB) (l : List VehicleRequest) :
    roleFilter "logistic" u db l =
      l.filter (fun r => r.status = ReqStatus.approved_by_chef) := rfl

/-- The charoi branch of the listing filter keeps `approved_by_logistic`. -/
lemma roleFilter_charoi (u : User) (db : DB) (l : List VehicleRequest) :
    roleFilter "charoi" u db l =
      l.filter (fun r => r.status = ReqStatus.approved_by_logistic) := rfl

/-- The chef branch of the listing filter is the requester-service join. -/
lemma roleFilter_chef (u : User) (db : DB) (l : List VehicleRequest) :
    roleFilter "chef" u db l =
      l.filter (fun r => db.users.any
        (fun q => some q.id = r.requesterId && q.serviceId = u.serviceId)) := rfl

/-- The spec predicate at role admin. -/
lemma visibleSpec_admin (u : User) (db : DB) (r : VehicleRequest) :
    visibleSpec "admin" u db r = true := rfl

/-- The spec predicate at role superadmin. -/
lemma visibleSpec_superadmin (u : User) (db : DB) (r : VehicleRequest) :
    visibleSpec "superadmin" u db r = true := rfl

/-- The spec predicate at role logistic. -/
lemma visibleSpec_logistic (u : User) (db : DB) (r : VehicleRequest) :
    visibleSpec "logistic" u db r =
      decide (r.status = ReqStatus.approved_by_chef) := rfl

/-- The spec predicate at role charoi. -/
lemma visibleSpec_charoi (u : User) (db : DB) (r : VehicleRequest) :
    visibleSpec "charoi" u db r =
      decide (r.status = ReqStatus.approved_by_logistic) := rfl

/-- The spec predicate at role chef for a chef with a service. -/
lemma visibleSpec_chef {u : User} (db : DB) (r : VehicleRequest) {s : Nat}
    (hs : u.serviceId = some s) :
    visibleSpec "chef" u db r =
      db.users.any (fun q => some q.id = r.requesterId && q.serviceId = some s) := by
  show (match u.serviceId with
    | none => false
    | some s =>
      db.users.any (fun q => some q.id = r.requesterId && q.serviceId = some s)) = _
  rw [hs]

/-- The spec predicate at role chef with no service. -/
lemma visibleSpec_chef_none {u : User} (db : DB) (r : VehicleRequest)
    (hs : u.serviceId = none) : visibleSpec "chef" u db r = false := by
  show (match u.serviceId with
    | none => false
    | some s =>
      db.users.any (fun q => some q.id = r.requesterId && q.serviceId = some s)) = _
  rw [hs]

/-- Looking up a fuel row after `setFuelFirst` replaced the first row with
the key by a record still carrying the key. -/
lemma find?_setFuelFirst {l : List Fuel} {fuelId : Nat} {f : Fuel}
    (hf : f.id = fuelId) (h : (l.find? (fun x => x.id = fuelId)).isSome) :
    (setFuelFirst l fuelId f).find? (fun x => x.id = fuelId) = some f := by
  induction l with
  | nil => simp at h
  | cons a as ih =>
    by_cases ha : a.id = fuelId
    · simp [setFuelFirst, ha, List.find?_cons, hf]
    · have h' : (as.find? (fun x => x.id = fuelId)).isSome := by
        rw [List.find?_cons] at h
        simpa [ha] using h
      simp [setFuelFirst, ha, List.find?_cons, ih h']

/-- Sort-order, soundness and (when pagination cannot cut anything)
completeness of the filter/sort/paginate pipeline the listing endpoint
executes. -/
lemma listing_spec (l0 : List VehicleRequest) (p : VehicleRequest → Bool)
    (limit skip : Nat) :
    List.Sorted newestFirst
      ((((l0.filter p).insertionSort newestFirst).drop skip).take limit) ∧
    (∀ r ∈ (((l0.filter p).insertionSort newestFirst).drop skip).take limit,
      r ∈ l0 ∧ p r) ∧
    (skip = 0 → l0.length ≤ limit → ∀ r ∈ l0, p r →
      r ∈ (((l0.filter p).insertionSort newestFirst).drop skip).take limit) := by
  refine ⟨?_, ?_, ?_⟩
  · exact List.Pairwise.sublist
      ((List.take_sublist _ _).trans (List.drop_sublist _ _))
      (List.sorted_insertionSort _ _)
  · intro r hr
    have h1 : r ∈ (l0.filter p).insertionSort newestFirst :=
      ((List.take_sublist _ _).trans (List.drop_sublist _ _)).subset hr
    exact List.mem_filter.mp ((List.perm_insertionSort _ _).mem_iff.mp h1)
  · intro hskip hlim r hr hp
    subst hskip
    rw [List.drop_zero]
    have hlen : ((l0.filter p).insertionSort newestFirst).length ≤ limit := by
      rw [(List.perm_insertionSort newestFirst (l0.filter p)).length_eq]
      exact le_trans (List.length_filter_le _ _) hlim
    rw [List.take_of_length_le hlen]
    exact (List.perm_insertionSort _ _).mem_iff.mpr
      (List.mem_filter.mpr ⟨hr, hp⟩)

end FleetApp

namespace FleetApp

/-! ### Claim theorems -/

/-- C1: at most one `RequestApproval` row exists per (request_id,
approval_step).  First conjunct: on an existing request, a submission for a
step that already has a row fails with Conflict, for any caller whose role
maps to that step and any decision — and since the error branch of the
handler persists nothing (transaction rollback), the recorded decision and
the request's aggregate status are untouched.  Second conjunct: the
per-step-uniqueness invariant is preserved by every successful submission. -/
theorem submit_decision_step_decided_once
    (db : DB) (requestId : Nat) (d : Decision) (c : Option String) (u : User) :
    (∀ r a, findRequest db requestId = some r →
      findApproval db requestId (approvalStepFor (lower u.roleName)) = some a →
      lower u.roleName ∈ approvalRoles →
      submit_approval requestId d c u db = .error .conflict) ∧
    (∀ db', stepUnique db → submit_approval requestId d c u db = .ok db' →
      stepUnique db') := by
  constructor
  · intro r a hreq happ hrole
    unfold submit_approval
    rw [if_pos hrole, hreq]
    simp only [if_neg (approvalStepFor_ne_zero hrole), happ]
  · intro db' huniq hok
    obtain ⟨hrole, ⟨r, hreq⟩, happ, _, happrovals, _⟩ := submit_approval_ok_inv hok
    intro rid step
    rw [stepUnique] at huniq
    have hcount : stepCount db' rid step =
        stepCount db rid step +
          List.countP
            (fun a : RequestApproval => a.requestId = rid && a.approvalStep = step)
            [{ requestId := requestId
               approverId := some u.id
               approvalStep := approvalStepFor (lower u.roleName)
               status := d.toApprStatus
               comments := c }] := by
      rw [stepCount, happrovals, List.countP_append]; rfl
    by_cases hkey : rid = requestId ∧ step = approvalStepFor (lower u.roleName)
    · obtain ⟨h1, h2⟩ := hkey
      subst h1; subst h2
      rw [hcount, stepCount_eq_zero_of_findApproval_none happ]
      simp
    · rw [hcount]
      have : List.countP
          (fun a : RequestApproval => a.requestId = rid && a.approvalStep = step)
          [{ requestId := requestId
             approverId := some u.id
             approvalStep := approvalStepFor (lower u.roleName)
             status := d.toApprStatus
             comments := c }] = 0 := by
        simp only [List.countP, List.countP.go]
        rcases not_and_or.mp hkey with h | h <;> simp [Ne.symm h]
      rw [this]
      exact Nat.add_zero _ ▸ (huniq rid step)

/-- Closed-input evaluation of `submit_decision_step_decided_once`: on a
database whose step 1 is already decided, the chef's second submission is a
Conflict; and the invariant survives the first successful submission. -/
theorem submit_decision_step_decided_once_witness :
    submit_approval 1 .denied none exChef exDbStep1 = .error .conflict ∧
    stepUnique exDbStep1 := by
  constructor
  · exact (submit_decision_step_decided_once exDbStep1 1 .denied none exChef).1
      { exReq with status := .approved_by_chef } exApproval1
      (by decide) (by decide) (by decide)
  · exact (submit_decision_step_decided_once exDb 1 .approved none exChef).2
      exDbStep1 (fun rid step => by simp [stepCount, exDb]) rfl

/-- C2: transactional effects.  On success the approval-row insert and the
request-status update both take effect in the resulting state; on failure the
handler aborts with one of the three documented errors and — the error branch
carrying no state — persists nothing. -/
theorem submit_decision_atomic
    (requestId : Nat) (d : Decision) (c : Option String) (u : User) (db : DB) :
    (∀ db', submit_approval requestId d c u db = .ok db' →
      db'.approvals = db.approvals ++
        [{ requestId := requestId
           approverId := some u.id
           approvalStep := approvalStepFor (lower u.roleName)
           status := d.toApprStatus
           comments := c }] ∧
      ∃ s, aggregateStatusFor d (approvalStepFor (lower u.roleName)) = some s ∧
        reqStatus? db' requestId = some s) ∧
    (∀ e, submit_approval requestId d c u db = .error e →
      e = .notFound ∨ e = .forbidden ∨ e = .conflict) := by
  constructor
  · intro db' hok
    obtain ⟨hrole, ⟨r, hreq⟩, _, _, happrovals, hrequests⟩ :=
      submit_approval_ok_inv hok
    refine ⟨happrovals, ?_⟩
    obtain ⟨s, hs⟩ := Option.isSome_iff_exists.mp
      (aggregateStatusFor_isSome (d := d) (approvalStepFor_mem hrole))
    refine ⟨s, hs, ?_⟩
    rw [reqStatus?, findRequest, hrequests, hs]
    simp only
    rw [find?_setStatusFirst]
    rw [findRequest] at hreq
    rw [hreq]
    rfl
  · intro e he
    exact submit_approval_error_inv he

/-- Closed-input evaluation of `submit_decision_atomic`: the chef's approval
on the fresh database inserts the step-1 row and moves the status, and the
driver's attempt errors with Forbidden. -/
theorem submit_decision_atomic_witness :
    (exDbStep1.approvals = exDb.approvals ++ [exApproval1] ∧
      ∃ s, aggregateStatusFor .approved (approvalStepFor (lower exChef.roleName)) = some s ∧
        reqStatus? exDbStep1 1 = some s) ∧
    (ApiError.forbidden = .notFound ∨ ApiError.forbidden = .forbidden ∨
      ApiError.forbidden = .conflict) := by
  constructor
  · have h := (submit_decision_atomic 1 .approved none exChef exDb).1
      exDbStep1 rfl
    exact ⟨h.1, h.2⟩
  · exact (submit_decision_atomic 1 .approved none exDriver exDb).2
      .forbidden rfl

/-- C4: a successful `denied` decision sets the request's aggregate status to
`denied`, whatever the caller's step and whatever approvals were recorded
before (the statement quantifies over every state and every caller whose
submission succeeds). -/
theorem submit_denied_sets_denied
    (requestId : Nat) (c : Option String) (u : User) (db db' : DB)
    (hok : submit_approval requestId .denied c u db = .ok db') :
    reqStatus? db' requestId = some .denied :=
  reqStatus?_of_submit_ok hok rfl

/-- Closed-input evaluation of `submit_denied_sets_denied`: the logistic
user's step-2 denial on the fresh database ends with status `denied`. -/
theorem submit_denied_sets_denied_witness :
    reqStatus? exDbDenied 1 = some ReqStatus.denied :=
  submit_denied_sets_denied 1 none exLogistic exDb exDbDenied rfl

/-- C6: the approval step is a function of the caller's role alone — chef is
step 1, logistic step 2, charoi/admin/superadmin step 3; a caller whose
lowercased role is outside the configured set fails with Forbidden (nothing
recorded: the error branch persists nothing); a non-existent request id fails
with NotFound; and on success the inserted row carries exactly the step the
role maps to. -/
theorem submit_role_determines_step
    (requestId : Nat) (d : Decision) (c : Option String) (u : User) (db : DB) :
    (approvalStepFor "chef" = 1 ∧ approvalStepFor "logistic" = 2 ∧
      approvalStepFor "charoi" = 3 ∧ approvalStepFor "admin" = 3 ∧
      approvalStepFor "superadmin" = 3) ∧
    (lower u.roleName ∉ approvalRoles →
      submit_approval requestId d c u db = .error .forbidden) ∧
    (lower u.roleName ∈ approvalRoles → findRequest db requestId = none →
      submit_approval requestId d c u db = .error .notFound) ∧
    (∀ db', submit_approval requestId d c u db = .ok db' →
      db'.approvals = db.approvals ++
        [{ requestId := requestId
           approverId := some u.id
           approvalStep := approvalStepFor (lower u.roleName)
           status := d.toApprStatus
           comments := c }]) := by
  refine ⟨⟨rfl, rfl, rfl, rfl, rfl⟩, ?_, ?_, ?_⟩
  · intro h
    unfold submit_approval
    rw [if_neg h]
  · intro hrole hnone
    unfold submit_approval
    rw [if_pos hrole, hnone]
  · intro db' hok
    exact (submit_approval_ok_inv hok).2.2.2.2.1

/-- Closed-input evaluation of `submit_role_determines_step`: the driver is
Forbidden, a missing request id is NotFound, and the chef's successful
submission inserts the step-1 row. -/
theorem submit_role_determines_step_witness :
    submit_approval 1 .approved none exDriver exDb = .error .forbidden ∧
    submit_approval 2 .approved none exChef exDb = .error .notFound ∧
    exDbStep1.approvals = exDb.approvals ++ [exApproval1] := by
  refine ⟨?_, ?_, ?_⟩
  · exact (submit_role_determines_step 1 .approved none exDriver exDb).2.1
      (by decide)
  · exact (submit_role_determines_step 2 .approved none exChef exDb).2.2.1
      (by decide) rfl
  · exact (submit_role_determines_step 1 .approved none exChef exDb).2.2.2
      exDbStep1 rfl

/-- C7: no ordering between steps is enforced — the only per-step
precondition on a successful submission is that the caller's own step is
undecided: the hypotheses say nothing about rows for earlier steps, so the
theorem covers in particular a state with no step-1 row when a step-2 or
step-3 caller submits. -/
theorem submit_no_step_ordering
    (requestId : Nat) (d : Decision) (c : Option String) (u : User) (db : DB)
    (r : VehicleRequest)
    (hrole : lower u.roleName ∈ approvalRoles)
    (hreq : findRequest db requestId = some r)
    (hfree : findApproval db requestId (approvalStepFor (lower u.roleName)) = none) :
    ∃ db', submit_approval requestId d c u db = .ok db' :=
  ⟨_, submit_approval_ok hrole hreq hfree⟩

/-- Closed-input evaluation of `submit_no_step_ordering`: the logistic user's
step-2 approval succeeds on the fresh database in which no step-1 row
exists. -/
theorem submit_no_step_ordering_witness :
    ∃ db', submit_approval 1 .approved none exLogistic exDb = .ok db' :=
  submit_no_step_ordering 1 .approved none exLogistic exDb exReq
    (by decide) rfl rfl

/-- C3: the straight-through chain.  Starting from a request created with
status `pending` and no approval rows, approving as chef, then logistic, then
a step-3 role moves the aggregate status through `pending → approved_by_chef
→ approved_by_logistic → fully_approved`, with exactly 0, 1, 2 and 3
`RequestApproval` rows at the successive states. -/
theorem approval_chain
    (db0 : DB) (rid t : Nat) (u0 uc ul uh : User)
    (c1 c2 c3 : Option String)
    (hc : lower uc.roleName = "chef")
    (hl : lower ul.roleName = "logistic")
    (hh : lower uh.roleName ∈ ["charoi", "admin", "superadmin"])
    (hfreshReq : ∀ r ∈ db0.requests, r.id ≠ rid)
    (hfreshApp : ∀ a ∈ db0.approvals, a.requestId ≠ rid) :
    reqStatus? (create_request rid t u0 db0) rid = some .pending ∧
    approvalCount (create_request rid t u0 db0) rid = 0 ∧
    ∃ db2 db3 db4,
      submit_approval rid .approved c1 uc (create_request rid t u0 db0) = .ok db2 ∧
      reqStatus? db2 rid = some .approved_by_chef ∧
      approvalCount db2 rid = 1 ∧
      submit_approval rid .approved c2 ul db2 = .ok db3 ∧
      reqStatus? db3 rid = some .approved_by_logistic ∧
      approvalCount db3 rid = 2 ∧
      submit_approval rid .approved c3 uh db3 = .ok db4 ∧
      reqStatus? db4 rid = some .fully_approved ∧
      approvalCount db4 rid = 3 := by
  set db1 : DB := create_request rid t u0 db0 with hdb1
  have hfr1 : findRequest db1 rid =
      some { id := rid, requesterId := some u0.id, status := .pending
             createdAt := t } :=
    findRequest_create t u0 hfreshReq
  have hPending : reqStatus? db1 rid = some .pending := by
    rw [reqStatus?, hfr1]; rfl
  have hCount1 : approvalCount db1 rid = 0 := by
    rw [approvalCount]
    exact List.countP_eq_zero.mpr (fun a ha => by simp [hfreshApp a ha])
  let row1 : RequestApproval :=
    { requestId := rid, approverId := some uc.id, approvalStep := 1
      status := Decision.approved.toApprStatus, comments := c1 }
  let row2 : RequestApproval :=
    { requestId := rid, approverId := some ul.id, approvalStep := 2
      status := Decision.approved.toApprStatus, comments := c2 }
  let row3 : RequestApproval :=
    { requestId := rid, approverId := some uh.id, approvalStep := 3
      status := Decision.approved.toApprStatus, comments := c3 }
  let db2v : DB :=
    ⟨db1.users, setStatusFirst db1.requests rid .approved_by_chef,
      db1.approvals ++ [row1]⟩
  let db3v : DB :=
    ⟨db2v.users, setStatusFirst db2v.requests rid .approved_by_logistic,
      db2v.approvals ++ [row2]⟩
  let db4v : DB :=
    ⟨db3v.users, setStatusFirst db3v.requests rid .fully_approved,
      db3v.approvals ++ [row3]⟩
  have hrole_c : lower uc.roleName ∈ approvalRoles := by rw [hc]; decide
  have hstep_c : approvalStepFor (lower uc.roleName) = 1 := by rw [hc]; decide
  have hfa1 : findApproval db1 rid 1 = none :=
    findApproval_eq_none_of_all (fun a ha h => hfreshApp a ha h.1)
  have hok2 : submit_approval rid .approved c1 uc db1 = .ok db2v :=
    submit_approval_ok_at hrole_c hstep_c hfr1 hfa1 rfl
  have hfr2 : findRequest db2v rid =
      some { id := rid, requesterId := some u0.id
             status := .approved_by_chef, createdAt := t } :=
    findRequest_of_set hfr1
  have hstat2 : reqStatus? db2v rid = some .approved_by_chef := by
    rw [reqStatus?, hfr2]; rfl
  have hCount2 : approvalCount db2v rid = 1 := by
    show (db0.approvals ++ [row1]).countP (fun a => a.requestId = rid) = 1
    rw [List.countP_append,
      List.countP_eq_zero.mpr (fun a ha => by simp [hfreshApp a ha])]
    simp
  have hrole_l : lower ul.roleName ∈ approvalRoles := by rw [hl]; decide
  have hstep_l : approvalStepFor (lower ul.roleName) = 2 := by rw [hl]; decide
  have hfa2 : findApproval db2v rid 2 = none :=
    findApproval_eq_none_of_all (fun a ha h => by
      rcases List.mem_append.mp ha with ha0 | ha1
      · exact hfreshApp a ha0 h.1
      · simp only [List.mem_singleton] at ha1
        subst ha1
        exact absurd h.2 (by simp))
  have hok3 : submit_approval rid .approved c2 ul db2v = .ok db3v :=
    submit_approval_ok_at hrole_l hstep_l hfr2 hfa2 rfl
  have hfr3 : findRequest db3v rid =
      some { id := rid, requesterId := some u0.id
             status := .approved_by_logistic, createdAt := t } :=
    findRequest_of_set hfr2
  have hstat3 : reqStatus? db3v rid = some .approved_by_logistic := by
    rw [reqStatus?, hfr3]; rfl
  have hCount3 : approvalCount db3v rid = 2 := by
    show ((db0.approvals ++ [row1]) ++ [row2]).countP
      (fun a => a.requestId = rid) = 2
    rw [List.countP_append, List.countP_append,
      List.countP_eq_zero.mpr (fun a ha => by simp [hfreshApp a ha])]
    simp
  have hrole_h : lower uh.roleName ∈ approvalRoles :=
    mem_approvalRoles_of_mem3 hh
  have hstep_h : approvalStepFor (lower uh.roleName) = 3 :=
    approvalStepFor_of_mem3 hh
  have hfa3 : findApproval db3v rid 3 = none :=
    findApproval_eq_none_of_all (fun a ha h => by
      rcases List.mem_append.mp ha with ha01 | ha2
      · rcases List.mem_append.mp ha01 with ha0 | ha1
        · exact hfreshApp a ha0 h.1
        · simp only [List.mem_singleton] at ha1
          subst ha1
          exact absurd h.2 (by simp)
      · simp only [List.mem_singleton] at ha2
        subst ha2
        exact absurd h.2 (by simp))
  have hok4 : submit_approval rid .approved c3 uh db3v = .ok db4v :=
    submit_approval_ok_at hrole_h hstep_h hfr3 hfa3 rfl
  have hfr4 : findRequest db4v rid =
      some { id := rid, requesterId := some u0.id
             status := .fully_approved, createdAt := t } :=
    findRequest_of_set hfr3
  have hstat4 : reqStatus? db4v rid = some .fully_approved := by
    rw [reqStatus?, hfr4]; rfl
  have hCount4 : approvalCount db4v rid = 3 := by
    show (((db0.approvals ++ [row1]) ++ [row2]) ++ [row3]).countP
      (fun a => a.requestId = rid) = 3
    rw [List.countP_append, List.countP_append, List.countP_append,
      List.countP_eq_zero.mpr (fun a ha => by simp [hfreshApp a ha])]
    simp
  exact ⟨hPending, hCount1, db2v, db3v, db4v, hok2, hstat2, hCount2,
    hok3, hstat3, hCount3, hok4, hstat4, hCount4⟩

/-- Closed-input evaluation of `approval_chain`: the full end-to-end run on a
fresh request with id 2 created in the example database. -/
theorem approval_chain_witness :
    reqStatus? (create_request 2 200 exRequester exDb) 2 = some .pending ∧
    approvalCount (create_request 2 200 exRequester exDb) 2 = 0 ∧
    ∃ db2 db3 db4,
      submit_approval 2 .approved none exChef
        (create_request 2 200 exRequester exDb) = .ok db2 ∧
      reqStatus? db2 2 = some .approved_by_chef ∧
      approvalCount db2 2 = 1 ∧
      submit_approval 2 .approved none exLogistic db2 = .ok db3 ∧
      reqStatus? db3 2 = some .approved_by_logistic ∧
      approvalCount db3 2 = 2 ∧
      submit_approval 2 .approved none exCharoi db3 = .ok db4 ∧
      reqStatus? db4 2 = some .fully_approved ∧
      approvalCount db4 2 = 3 :=
  approval_chain exDb 2 200 exRequester exChef exLogistic exCharoi
    none none none (by decide) (by decide) (by decide) (by decide) (by decide)

/-- C5 counterexample: `denied` is not terminal in the code.  Concretely: the
logistic user denies the pending request (status becomes `denied`), then the
chef submits `approved` at the still-undecided step 1 — the call succeeds and
the status is overwritten to `approved_by_chef`, contradicting the claim that
no subsequent submission changes a denied request's status. -/
theorem denied_not_terminal_counterexample :
    submit_approval 1 .denied none exLogistic exDb = .ok exDbDenied ∧
    reqStatus? exDbDenied 1 = some .denied ∧
    submit_approval 1 .approved none exChef exDbDenied = .ok exDbDeniedThenChef ∧
    reqStatus? exDbDeniedThenChef 1 = some .approved_by_chef ∧
    reqStatus? exDbDeniedThenChef 1 ≠ some .denied :=
  ⟨rfl, rfl, rfl, rfl, by decide⟩

/-- C5 (amended): the handler never reads the current status, so `denied` is
not terminal.  What holds instead: after a request has been denied, any
subsequent submission that succeeds with decision `approved` (necessarily at
a different, not-yet-decided step) overwrites the status with that step's
approved value, which is never `denied`; only further `denied` decisions and
failed calls leave the status at `denied`. -/
theorem denied_overwritten_by_later_approval
    (requestId : Nat) (c : Option String) (u : User) (db db' : DB)
    (_hdenied : reqStatus? db requestId = some .denied)
    (hok : submit_approval requestId .approved c u db = .ok db') :
    ∃ s, aggregateStatusFor .approved (approvalStepFor (lower u.roleName)) = some s ∧
      reqStatus? db' requestId = some s ∧ s ≠ ReqStatus.denied := by
  obtain ⟨hrole, _, _, _, _, _⟩ := submit_approval_ok_inv hok
  obtain ⟨s, hs⟩ := Option.isSome_iff_exists.mp
    (aggregateStatusFor_isSome (d := .approved) (approvalStepFor_mem hrole))
  exact ⟨s, hs, reqStatus?_of_submit_ok hok hs,
    aggregateStatusFor_approved_ne_denied hs⟩

/-- Closed-input evaluation of `denied_overwritten_by_later_approval` on the
denied example state. -/
theorem denied_overwritten_by_later_approval_witness :
    ∃ s, aggregateStatusFor .approved (approvalStepFor (lower exChef.roleName)) = some s ∧
      reqStatus? exDbDeniedThenChef 1 = some s ∧ s ≠ ReqStatus.denied :=
  denied_overwritten_by_later_approval 1 none exChef exDbDenied
    exDbDeniedThenChef rfl rfl

/-- C9: deletion authorization.  A missing id is NotFound; an admin or
superadmin deletes any existing request, and the owner deletes their own
request while it is still `pending` (the matching rows are removed); every
other combination is Forbidden and — the error branch carrying no state —
leaves the request in place. -/
theorem delete_request_authorization (id : Nat) (u : User) (db : DB) :
    (findRequest db id = none → delete_request id u db = .error .notFound) ∧
    (∀ r, findRequest db id = some r →
      ((lower u.roleName ∈ ["admin", "superadmin"] ∨
        (r.requesterId = some u.id ∧ r.status = ReqStatus.pending)) →
        delete_request id u db =
          .ok { db with requests := db.requests.filter (fun x => ¬ x.id = id) }) ∧
      (¬(lower u.roleName ∈ ["admin", "superadmin"] ∨
        (r.requesterId = some u.id ∧ r.status = ReqStatus.pending)) →
        delete_request id u db = .error .forbidden)) := by
  constructor
  · intro h
    unfold delete_request
    rw [h]
  · intro r hr
    constructor
    · intro hperm
      unfold delete_request
      rw [hr]
      simp only
      rw [if_pos hperm]
    · intro hperm
      unfold delete_request
      rw [hr]
      simp only
      rw [if_neg hperm]

/-- Closed-input evaluation of `delete_request_authorization`: a missing id,
the owner deleting their pending request, and the owner blocked after the
chef's approval. -/
theorem delete_request_authorization_witness :
    delete_request 9 exAdmin exDb = .error .notFound ∧
    delete_request 1 exRequester exDb =
      .ok { exDb with requests := exDb.requests.filter (fun x => ¬ x.id = 1) } ∧
    delete_request 1 exRequester exDbStep1 = .error .forbidden := by
  refine ⟨?_, ?_, ?_⟩
  · exact (delete_request_authorization 9 exAdmin exDb).1 rfl
  · exact ((delete_request_authorization 1 exRequester exDb).2 exReq rfl).1
      (by decide)
  · exact ((delete_request_authorization 1 exRequester exDbStep1).2
      { exReq with status := .approved_by_chef } rfl).2 (by decide)

/-- C8: role-filtered listing.  A caller outside the five configured roles is
Forbidden; a chef with no service gets the empty list; otherwise the endpoint
returns a newest-created-first list whose members are exactly the rows the
caller's role allows (soundness always; completeness whenever pagination
cannot cut anything, i.e. skip 0 and limit at least the table size). -/
theorem get_all_requests_role_visibility
    (u : User) (db : DB) (limit skip : Nat) :
    (lower u.roleName ∉ listRoles →
      get_all_requests u limit skip db = .error .forbidden) ∧
    (lower u.roleName = "chef" → u.serviceId = none →
      get_all_requests u limit skip db = .ok []) ∧
    (lower u.roleName ∈ listRoles →
      ∃ l, get_all_requests u limit skip db = .ok l ∧
        List.Sorted newestFirst l ∧
        (∀ r ∈ l, r ∈ db.requests ∧ visibleSpec (lower u.roleName) u db r) ∧
        (skip = 0 → db.requests.length ≤ limit →
          ∀ r ∈ db.requests, visibleSpec (lower u.roleName) u db r → r ∈ l)) := by
  refine ⟨?_, ?_, ?_⟩
  · intro h
    unfold get_all_requests
    rw [if_neg h]
  · intro hchef hnone
    unfold get_all_requests
    rw [if_pos (by rw [hchef]; decide)]
    simp only
    rw [if_pos ⟨hchef, hnone⟩]
  · intro hmem
    by_cases hcn : lower u.roleName = "chef" ∧ u.serviceId = none
    · refine ⟨[], ?_, by simp, by simp, ?_⟩
      · unfold get_all_requests
        rw [if_pos hmem]
        simp only
        rw [if_pos hcn]
      · intro _ _ r _ hv
        rw [hcn.1, visibleSpec_chef_none db r hcn.2] at hv
        exact absurd hv Bool.false_ne_true
    · have hmem' : lower u.roleName = "admin" ∨ lower u.roleName = "superadmin" ∨
          lower u.roleName = "logistic" ∨ lower u.roleName = "charoi" ∨
          lower u.roleName = "chef" := by
        simpa [listRoles] using hmem
      rcases hmem' with hro | hro | hro | hro | hro
      · refine ⟨(((db.requests.filter (fun _ => true)).insertionSort
            newestFirst).drop skip).take limit, ?_,
            (listing_spec _ _ _ _).1, ?_, ?_⟩
        · unfold get_all_requests
          rw [if_pos hmem]
          simp only
          rw [if_neg hcn, hro, roleFilter_admin, List.filter_true db.requests]
        · intro r hr
          have h := (listing_spec db.requests (fun _ => true) limit skip).2.1 r hr
          rw [hro, visibleSpec_admin]
          exact ⟨h.1, rfl⟩
        · intro h1 h2 r hr _
          exact (listing_spec db.requests (fun _ => true) limit skip).2.2
            h1 h2 r hr rfl
      · refine ⟨(((db.requests.filter (fun _ => true)).insertionSort
            newestFirst).drop skip).take limit, ?_,
            (listing_spec _ _ _ _).1, ?_, ?_⟩
        · unfold get_all_requests
          rw [if_pos hmem]
          simp only
          rw [if_neg hcn, hro, roleFilter_superadmin, List.filter_true db.requests]
        · intro r hr
          have h := (listing_spec db.requests (fun _ => true) limit skip).2.1 r hr
          rw [hro, visibleSpec_superadmin]
          exact ⟨h.1, rfl⟩
        · intro h1 h2 r hr _
          exact (listing_spec db.requests (fun _ => true) limit skip).2.2
            h1 h2 r hr rfl
      · refine ⟨(((db.requests.filter
            (fun r => r.status = ReqStatus.approved_by_chef)).insertionSort
            newestFirst).drop skip).take limit, ?_,
            (listing_spec _ _ _ _).1, ?_, ?_⟩
        · unfold get_all_requests
          rw [if_pos hmem]
          simp only
          rw [if_neg hcn, hro, roleFilter_logistic]
        · intro r hr
          have h := (listing_spec _ _ _ _).2.1 r hr
          rw [hro, visibleSpec_logistic]
          exact h
        · intro h1 h2 r hr hv
          rw [hro, visibleSpec_logistic] at hv
          exact (listing_spec _ _ _ _).2.2 h1 h2 r hr hv
      · refine ⟨(((db.requests.filter
            (fun r => r.status = ReqStatus.approved_by_logistic)).insertionSort
            newestFirst).drop skip).take limit, ?_,
            (listing_spec _ _ _ _).1, ?_, ?_⟩
        · unfold get_all_requests
          rw [if_pos hmem]
          simp only
          rw [if_neg hcn, hro, roleFilter_charoi]
        · intro r hr
          have h := (listing_spec _ _ _ _).2.1 r hr
          rw [hro, visibleSpec_charoi]
          exact h
        · intro h1 h2 r hr hv
          rw [hro, visibleSpec_charoi] at hv
          exact (listing_spec _ _ _ _).2.2 h1 h2 r hr hv
      · have hne : u.serviceId ≠ none := fun h => hcn ⟨hro, h⟩
        obtain ⟨s, hs⟩ := Option.ne_none_iff_exists'.mp hne
        refine ⟨(((db.requests.filter (fun r => db.users.any
            (fun q => some q.id = r.requesterId && q.serviceId = some s))).insertionSort
            newestFirst).drop skip).take limit, ?_,
            (listing_spec _ _ _ _).1, ?_, ?_⟩
        · unfold get_all_requests
          rw [if_pos hmem]
          simp only
          rw [if_neg hcn, hro, roleFilter_chef, hs]
        · intro r hr
          have h := (listing_spec _ _ _ _).2.1 r hr
          rw [hro, visibleSpec_chef db r hs]
          exact h
        · intro h1 h2 r hr hv
          rw [hro, visibleSpec_chef db r hs] at hv
          exact (listing_spec _ _ _ _).2.2 h1 h2 r hr hv

/-- Closed-input evaluation of `get_all_requests_role_visibility`: the driver
is Forbidden, the serviceless chef gets the empty list, and the logistic user
gets the sound and complete `approved_by_chef` listing. -/
theorem get_all_requests_role_visibility_witness :
    get_all_requests exDriver 100 0 exDb = .error .forbidden ∧
    get_all_requests exChefNoService 100 0 exDb = .ok [] ∧
    (∃ l, get_all_requests exLogistic 100 0 exDbStep1 = .ok l ∧
      List.Sorted newestFirst l ∧
      (∀ r ∈ l, r ∈ exDbStep1.requests ∧
        visibleSpec (lower exLogistic.roleName) exLogistic exDbStep1 r) ∧
      (0 = 0 → exDbStep1.requests.length ≤ 100 →
        ∀ r ∈ exDbStep1.requests,
          visibleSpec (lower exLogistic.roleName) exLogistic exDbStep1 r →
            r ∈ l)) := by
  refine ⟨?_, ?_, ?_⟩
  · exact (get_all_requests_role_visibility exDriver exDb 100 0).1 (by decide)
  · exact (get_all_requests_role_visibility exChefNoService exDb 100 0).2.1
      (by decide) rfl
  · exact (get_all_requests_role_visibility exLogistic exDbStep1 100 0).2.2
      (by decide)

/-- C10: the fuel-record `cost` is server-derived.  The payloads carry no
cost field (see `FuelCreatePayload`, `FuelUpdatePayload`); on create, a
non-positive quantity or unit price is rejected with BadRequest (once the
foreign keys resolve), and a successful create stores exactly
`round(quantity * price_little, 2)`; after every successful update the stored
cost is the rounded product of the effective quantity and unit price when
either was supplied, and the untouched old cost otherwise. -/
theorem fuel_cost_server_derived :
    (∀ (newId : Nat) (p : FuelCreatePayload) (db : FuelDB),
      (db.vehicles.find? (fun v => v.id = p.vehicleId)).isSome →
      (db.fuelTypes.find? (fun t => t.id = p.fuelTypeId)).isSome →
      p.quantity ≤ 0 ∨ p.priceLittle ≤ 0 →
      create_new_fuel_record newId p db = .error .badRequest) ∧
    (∀ (newId : Nat) (p : FuelCreatePayload) (db db' : FuelDB),
      create_new_fuel_record newId p db = .ok db' →
      0 < p.quantity ∧ 0 < p.priceLittle ∧
      db'.fuels = db.fuels ++
        [{ id := newId, vehicleId := p.vehicleId, fuelTypeId := p.fuelTypeId
           quantity := p.quantity, priceLittle := p.priceLittle
           cost := round2 (p.quantity * p.priceLittle) }]) ∧
    (∀ (fuelId : Nat) (p : FuelUpdatePayload) (db db' : FuelDB),
      update_existing_fuel_record fuelId p db = .ok db' →
      ∃ old, db.fuels.find? (fun f => f.id = fuelId) = some old ∧
        (db'.fuels.find? (fun f => f.id = fuelId)).map (·.cost) =
          some (if p.quantity.isSome || p.priceLittle.isSome then
            round2 ((p.quantity.getD old.quantity) *
              (p.priceLittle.getD old.priceLittle))
          else old.cost)) := by
  refine ⟨?_, ?_, ?_⟩
  · intro newId p db h1 h2 h3
    obtain ⟨v, hv⟩ := Option.isSome_iff_exists.mp h1
    obtain ⟨t, ht⟩ := Option.isSome_iff_exists.mp h2
    unfold create_new_fuel_record
    rw [hv, ht]
    simp only
    rcases h3 with h3 | h3
    · rw [if_pos h3]
    · by_cases hq : p.quantity ≤ 0
      · rw [if_pos hq]
      · rw [if_neg hq, if_pos h3]
  · intro newId p db db' h
    unfold create_new_fuel_record at h
    cases hv : db.vehicles.find? (fun v => v.id = p.vehicleId) with
    | none => rw [hv] at h; exact absurd h (by simp)
    | some v =>
      rw [hv] at h
      cases ht : db.fuelTypes.find? (fun t => t.id = p.fuelTypeId) with
      | none => rw [ht] at h; exact absurd h (by simp)
      | some t =>
        rw [ht] at h
        simp only at h
        by_cases hq : p.quantity ≤ 0
        · rw [if_pos hq] at h; exact absurd h (by simp)
        · rw [if_neg hq] at h
          by_cases hp : p.priceLittle ≤ 0
          · rw [if_pos hp] at h; exact absurd h (by simp)
          · rw [if_neg hp] at h
            simp only [Except.ok.injEq] at h
            subst h
            exact ⟨not_le.mp hq, not_le.mp hp, rfl⟩
  · intro fuelId p db db' h
    unfold update_existing_fuel_record at h
    cases hf : db.fuels.find? (fun f => f.id = fuelId) with
    | none => rw [hf] at h; exact absurd h (by simp)
    | some old =>
      rw [hf] at h
      simp only at h
      split at h
      · exact absurd h (by simp)
      · split at h
        · exact absurd h (by simp)
        · split at h
          · exact absurd h (by simp)
          · split at h
            · exact absurd h (by simp)
            · simp only [Except.ok.injEq] at h
              subst h
              refine ⟨old, rfl, ?_⟩
              have hpa := List.find?_some hf
              have hold : old.id = fuelId := of_decide_eq_true hpa
              have hid : (applyFuelUpdate old p
                  (if p.quantity.isSome || p.priceLittle.isSome then
                    some (round2 ((p.quantity.getD old.quantity) *
                      (p.priceLittle.getD old.priceLittle)))
                  else none)).id = fuelId := hold
              have hsome : (db.fuels.find? (fun x => x.id = fuelId)).isSome := by
                rw [hf]; rfl
              rw [find?_setFuelFirst hid hsome]
              by_cases hrec : (p.quantity.isSome || p.priceLittle.isSome) = true
              · simp [applyFuelUpdate, hrec]
              · simp [applyFuelUpdate, hrec]

/-- Closed-input evaluation of `fuel_cost_server_derived`: a zero quantity is
BadRequest; creating 2 units at 5/4 stores cost 5/2; updating the quantity to
3 recomputes the cost from the stored unit price. -/
theorem fuel_cost_server_derived_witness :
    create_new_fuel_record 9
      { vehicleId := 1, fuelTypeId := 2, quantity := 0, priceLittle := 1 }
      exFuelDb = .error .badRequest ∧
    (0 < (2 : ℚ) ∧ 0 < (5/4 : ℚ) ∧
      exFuelDb1.fuels = exFuelDb.fuels ++
        [{ id := 7, vehicleId := 1, fuelTypeId := 2
           quantity := 2, priceLittle := 5/4, cost := round2 (2 * (5/4)) }]) ∧
    (∃ old, exFuelDb1.fuels.find? (fun f => f.id = 7) = some old ∧
      (exFuelDb2.fuels.find? (fun f => f.id = 7)).map (·.cost) =
        some (round2 (3 * old.priceLittle))) := by
  refine ⟨?_, ?_, ?_⟩
  · exact fuel_cost_server_derived.1 9
      { vehicleId := 1, fuelTypeId := 2, quantity := 0, priceLittle := 1 }
      exFuelDb rfl rfl (Or.inl (by decide))
  · exact fuel_cost_server_derived.2.1 7
      { vehicleId := 1, fuelTypeId := 2, quantity := 2, priceLittle := 5/4 }
      exFuelDb exFuelDb1 (by with_unfolding_all rfl)
  · obtain ⟨old, h1, h2⟩ := fuel_cost_server_derived.2.2 7
      { quantity := some 3 } exFuelDb1 exFuelDb2 (by with_unfolding_all rfl)
    exact ⟨old, h1, h2⟩

end FleetApp
